import Mathlib

/-!
Verification development for the DisConnection repository
(`src/sources/common/packet.ts`, `src/sources/common/server.ts`,
`src/sources/transport/ipc.ts`, `src/sources/transport/protocol.ts`).

The TypeScript sources are shallowly embedded: JavaScript runtime values
are modelled by the inductive `JSValue`; thrown exceptions by `Except`;
the mutable `Protocol` class by explicit state passing on `ProtocolState`.
-/

namespace DisConnection

/-- A model of the JavaScript runtime values that the validated payloads
range over.  `vObj plainCtor fields` is an object with own enumerable
string-keyed `fields` (unique keys, insertion order); `plainCtor` records
whether `value.constructor === Object` holds, i.e. whether the object was
made through the plain `Object` construction path (object literal).
Arrays, functions and class instances are distinguished because
`isMessage` treats them differently. -/
inductive JSValue where
  | vUndefined : JSValue
  | vNull : JSValue
  | vBool (b : Bool) : JSValue
  | vNum (n : Int) : JSValue
  | vStr (s : String) : JSValue
  | vFun (id : Nat) : JSValue
  | vArr (elems : List JSValue) : JSValue
  | vObj (plainCtor : Bool) (fields : List (String × JSValue)) : JSValue

/-- The JavaScript `typeof` operator on the modelled values. -/
def typeofJS : JSValue → String
  | .vUndefined => "undefined"
  | .vNull => "object"
  | .vBool _ => "boolean"
  | .vNum _ => "number"
  | .vStr _ => "string"
  | .vFun _ => "function"
  | .vArr _ => "object"
  | .vObj _ _ => "object"

/-- Property access `value[key]`: the field of an object, `undefined`
otherwise (the sources only read properties of values already known to be
objects, so the `undefined` fallback is never observed on primitives). -/
def getField : JSValue → String → JSValue
  | .vObj _ fields, k =>
    match fields.lookup k with
    | some v => v
    | none => .vUndefined
  | _, _ => .vUndefined

/-- The test `value.constructor === Object` from `isMessage`
(src/sources/common/packet.ts line 235): true exactly for objects created
through the plain `Object` construction path.  Arrays (`Array`), class
instances and null-prototype objects all fail it. -/
def ctorIsObject : JSValue → Bool
  | .vObj plainCtor _ => plainCtor
  | _ => false

/-- Embedding of the inner helper `checkRecord(record, keys, arg)` of
`isMessage`: every listed key of `record` must have `typeof` equal to
`arg`. The source loops with an early `return false`; `List.all` is the
same function. -/
def checkRecord (record : JSValue) (keys : List String) (arg : String) : Bool :=
  keys.all fun k => typeofJS (getField record k) == arg

/-- The `cmd` parameter of `isMessage`: absent, a single code, or an
array of codes. -/
inductive CmdArg where
  | noCmd : CmdArg
  | one (c : String) : CmdArg
  | many (cs : List String) : CmdArg

/-- The strict inequality `data.cmd !== cmd` for a single string `cmd`;
at its use site `data.cmd` is already known to be a string. -/
def cmdNotEq (v : JSValue) (c : String) : Bool :=
  match v with
  | .vStr s => s != c
  | _ => true

/-- The test `cmd.includes(data.cmd)` for an array `cmd` argument. -/
def cmdIncludedIn (v : JSValue) (cs : List String) : Bool :=
  match v with
  | .vStr s => cs.contains s
  | _ => false

/-- Embedding of the consolidated `isMessage(data, cmd?, argsType?)`
(src/sources/common/packet.ts lines 218-267).  The guards appear in
source order: plain-object check, `cmd`/`nonce` string check, `args`
object check, optional `cmd` match, and the optional `argsType` switch
whose only case is `"CHANNEL"`.  Note the `"CHANNEL"` case rejects when
`!checkRecord(params, ["guildId","channelId","search","fingerprint"],
"string") || params.channelId !== undefined` — exactly as written in the
source. -/
def isMessage (data : JSValue) (cmd : CmdArg) (argsType : Option String) : Bool :=
  if typeofJS data != "object" || data matches .vNull || !ctorIsObject data then
    false
  else if !checkRecord data ["cmd", "nonce"] "string" then
    false
  else if typeofJS (getField data "args") != "object" then
    false
  else if (match cmd with
    | .one c => cmdNotEq (getField data "cmd") c
    | .many cs => !cmdIncludedIn (getField data "cmd") cs
    | .noCmd => false) then
    false
  else if (match argsType with
    | some t =>
      if typeofJS (getField (getField data "args") "params") == "object" then
        match t with
        | "CHANNEL" =>
          !checkRecord (getField (getField data "args") "params")
              ["guildId", "channelId", "search", "fingerprint"] "string"
            || !((getField (getField (getField data "args") "params") "channelId")
                  matches .vUndefined)
        | _ => false
      else false
    | none => false) then
    false
  else
    true

/-- The `UnknownMessage` interface of src/sources/common/packet.ts:
a string `cmd`, a string-or-null `nonce` and an `args` object (modelled
by its own fields). -/
structure UMessage where
  cmd : String
  nonce : Option String
  args : List (String × JSValue)

/-- A string-or-null `nonce` as a JavaScript value. -/
def jsNonce : Option String → JSValue
  | some s => .vStr s
  | none => .vNull

/-- The nullish coalescing `v ?? null` applied to a property read:
`undefined` and `null` become `null`, everything else is kept. -/
def nullCoalesce : JSValue → JSValue
  | .vUndefined => .vNull
  | .vNull => .vNull
  | v => v

/-- Property read `message.args[key]` on the `args` record of a message. -/
def lookupArg (args : List (String × JSValue)) (k : String) : JSValue :=
  match args.lookup k with
  | some v => v
  | none => .vUndefined

/-- JavaScript `String.prototype.endsWith(suffix)`, modelled as a suffix
test on the character sequences. -/
def jsEndsWith (s suffix : String) : Bool :=
  suffix.data.isSuffixOf s.data

/-- Embedding of the consolidated `messageDefaultResponse(message)`
(src/sources/common/packet.ts lines 268-283).  The result object is kept
with its literal field order: `cmd`, `data`, conditionally `evt`, then
`nonce`; `browserReq` is `message.cmd.endsWith("_BROWSER")`. -/
def messageDefaultResponse (m : UMessage) : JSValue :=
  let browserReq := jsEndsWith m.cmd "_BROWSER"
  .vObj true
    ([("cmd", .vStr m.cmd),
      ("data",
        if browserReq then
          .vObj true
            (("code", nullCoalesce (lookupArg m.args "code")) ::
              (if m.cmd == "GUILD_TEMPLATE_BROWSER" then
                [("guildTemplate",
                  .vObj true [("code", nullCoalesce (lookupArg m.args "code"))])]
              else []))
        else .vNull)] ++
      (if browserReq then [] else [("evt", .vNull)]) ++
      [("nonce", jsNonce m.nonce)])

/-- Embedding of the legacy static `Protocol.messageResponse(message)`
(src/sources/transport/protocol.ts lines 362-377).  Identical body except
that `browserReq` is the regular-expression test
`/^(INVITE|GUILD_TEMPLATE)_BROWSER$/.test(message.cmd)`, i.e. an anchored
match against exactly those two command strings. -/
def messageResponse (m : UMessage) : JSValue :=
  let browserReq := m.cmd == "INVITE_BROWSER" || m.cmd == "GUILD_TEMPLATE_BROWSER"
  .vObj true
    ([("cmd", .vStr m.cmd),
      ("data",
        if browserReq then
          .vObj true
            (("code", nullCoalesce (lookupArg m.args "code")) ::
              (if m.cmd == "GUILD_TEMPLATE_BROWSER" then
                [("guildTemplate",
                  .vObj true [("code", nullCoalesce (lookupArg m.args "code"))])]
              else []))
        else .vNull)] ++
      (if browserReq then [] else [("evt", .vNull)]) ++
      [("nonce", jsNonce m.nonce)])

/-- The `codes` entry of `knownPacketID`
(src/sources/common/packet.ts line 38). -/
def knownCodes : List String :=
  ["INVITE_BROWSER", "GUILD_TEMPLATE_BROWSER", "AUTHORIZE", "DEEP_LINK", "SET_ACTIVITY"]

/-- The `types` entry of `knownPacketID`
(src/sources/common/packet.ts line 39). -/
def knownTypes : List String := ["CHANNEL"]

/-- Embedding of the recursive `tryServer(port)` closure of `getServer`
(src/sources/common/server.ts lines 41-57).  `busy port` models whether
the server produced by `getter(port)` emits the error event (the port is
taken) rather than the listening event; `e` is the `end` bound of the
range.  The direction test, the exhaustion error and the step to the next
candidate follow the source: throw when the cursor has passed `end` in
the travel direction, retry at `port±1` on a bind error, otherwise
resolve with the bound port. -/
def tryServer (start e : Int) (busy : Int → Bool) (port : Int) : Except String Int :=
  if (if start > e then port < e else port > e) then
    .error "All ports from given range are busy!"
  else if busy port then
    tryServer start e busy (if start > e then port - 1 else port + 1)
  else
    .ok port
termination_by (if start > e then port + 1 - e else e + 1 - port).toNat
decreasing_by
  by_cases hdir : start > e <;> simp [hdir] at * <;> omega

/-- Embedding of `getServer(start, end, getter)`
(src/sources/common/server.ts lines 35-64): after the argument-shape
guards (the `isInteger` check always holds here since ports are modelled
as integers, and the no-extra-arguments check is structural), it resolves
`tryServer(start)`.  The resolved value is the reserved port (the paired
server object is `getter(port)` and carries no extra information). -/
def getServer (start e : Int) (busy : Int → Bool) : Except String Int :=
  tryServer start e busy start

/-- The `RawMessage` record of src/sources/transport/ipc.ts lines 23-27. -/
structure RawMessage where
  kind : Nat
  size : Nat
  data : List Nat
deriving DecidableEq

/-- `buffer.readUInt32LE(off)`: the little-endian 32-bit read at byte
offset `off`; Node throws a range error (here `none`) when fewer than 4
bytes remain. -/
def readUInt32LE (buf : List Nat) (off : Nat) : Option Nat :=
  match buf.drop off with
  | b0 :: b1 :: b2 :: b3 :: _ => some (b0 + 256 * b1 + 65536 * b2 + 16777216 * b3)
  | _ => none

/-- Embedding of `parsePacket(packet)` (src/sources/transport/ipc.ts
lines 29-40): while bytes remain, read the 4-byte little-endian `kind`
at offset 0 and `size` at offset 4, slice `subarray(8, 8+size)` as the
payload (clamped, as in Node), and continue on `subarray(8+size)`.
`none` models the range error that Node raises on a truncated header. -/
def parsePacket (packet : List Nat) : Option (List RawMessage) :=
  if packet.length = 0 then some []
  else
    match readUInt32LE packet 0, readUInt32LE packet 4 with
    | some kind, some size =>
      match parsePacket (packet.drop (8 + size)) with
      | some rest => some ({ kind := kind, size := size, data := (packet.drop 8).take size } :: rest)
      | none => none
    | _, _ => none
termination_by packet.length
decreasing_by simp only [List.length_drop]; omega

/-- The hook-name space (src/sources/common/packet.ts lines 294-300,
second document): `knownPacketID.codes` flat-mapped so that `DEEP_LINK`
is refined by each entry of `knownPacketID.types`. -/
def hookNames : List String :=
  knownCodes.flatMap fun code =>
    if code == "DEEP_LINK" then knownTypes.map (fun t => code ++ "_" ++ t) else [code]

/-- Keys of the public methods (and `isDestroyed`) found on the
`Protocol` prototype chain, used to model the dynamic method replacement
performed by `destroy`. -/
inductive MethodKey where
  | mAddHook | mRemoveHook | mRemoveAllHooks | mGetHooks | mAnyHooksActive
  | mToggleHooks | mLog | mDestroy | mIsDestroyed
deriving DecidableEq

/-- One value of the `#hooks` map: the ordered `Set` of hook callbacks
(functions are compared by identity, so they are modelled by numeric
ids; a JavaScript `Set` keeps insertion order and ignores re-insertion)
and the `active` flag. -/
structure HookEntry where
  list : List Nat
  active : Bool
deriving DecidableEq

/-- A slot of the `#hooks` map: a live entry, or the frozen `destroyHook`
stand-in installed by `destroy`, whose `list`/`active` getters throw. -/
inductive HookSlot where
  | entry (e : HookEntry) : HookSlot
  | poisonedSlot : HookSlot
deriving DecidableEq

/-- Errors thrown by the `Protocol` class: `TypeError`s from argument
validation, and the `Error("Object has been destroyed!")` thrown both by
`destroy` on a destroyed instance and by every method replaced with
`destroyFunc`. -/
inductive JsError where
  | typeError (msg : String)
  | destroyedError
deriving DecidableEq

/-- The observable state of one `Protocol` instance
(src/sources/common/packet.ts lines 338-548, second document):
the `#destroyed` flag, which methods have been replaced by the throwing
`destroyFunc`, and the `#hooks` map (a total function, but only the keys
in `hookNames` exist on the underlying object and only those are ever
read). -/
structure ProtocolState where
  destroyed : Bool
  poisoned : MethodKey → Bool
  hooks : String → HookSlot

/-- The state produced by the `Protocol` constructor: not destroyed, no
method replaced, and every hook name mapped to an empty list with the
`active` flag set (lines 358-364). -/
def ProtocolState.init : ProtocolState :=
  { destroyed := false
  , poisoned := fun _ => false
  , hooks := fun _ => .entry { list := [], active := true } }

/-- Functional update of one slot of the `#hooks` map. -/
def updateHooks (s : ProtocolState) (name : String) (slot : HookSlot) : ProtocolState :=
  { s with hooks := fun n => if n == name then slot else s.hooks n }

/-- The property read `this.#hooks[name]`: `none` when `name` is not a
key of the map (the read yields `undefined`). -/
def hookSlotOf (s : ProtocolState) (name : String) : Option HookSlot :=
  if hookNames.contains name then some (s.hooks name) else none

/-- Embedding of `Protocol.addHook(name, value)` (lines 460-466, second
document of src/sources/common/packet.ts).  Each public method first
models dynamic dispatch: if `destroy` has replaced it, the call throws
the destroyed error.  The body then follows the source: throw a
`TypeError` unless `name` is a key of `#hooks` and `value` is callable;
record `Set.has`, insert, and return the new count or `false` (here
`none`) when the callback was already present. -/
def Protocol.addHook (s : ProtocolState) (name : String) (value : JSValue) :
    Except JsError (Option Nat) × ProtocolState :=
  if s.poisoned .mAddHook then (.error .destroyedError, s)
  else if !hookNames.contains name || typeofJS value != "function" then
    (.error (.typeError "Invalid parameters type!"), s)
  else
    match value with
    | .vFun id =>
      match s.hooks name with
      | .entry e =>
        let wereAddedBefore := e.list.contains id
        let newList := if wereAddedBefore then e.list else e.list ++ [id]
        (.ok (if wereAddedBefore then none else some newList.length),
         updateHooks s name (.entry { e with list := newList }))
      | .poisonedSlot => (.error .destroyedError, s)
    | _ => (.error (.typeError "Invalid parameters type!"), s)

/-- Embedding of `Protocol.removeHook(name, value)` (lines 476-480):
same validation as `addHook`; `Set.delete` removes the callback and
returns whether it was present. -/
def Protocol.removeHook (s : ProtocolState) (name : String) (value : JSValue) :
    Except JsError Bool × ProtocolState :=
  if s.poisoned .mRemoveHook then (.error .destroyedError, s)
  else if !hookNames.contains name || typeofJS value != "function" then
    (.error (.typeError "Invalid parameters type!"), s)
  else
    match value with
    | .vFun id =>
      match s.hooks name with
      | .entry e =>
        (.ok (e.list.contains id),
         updateHooks s name (.entry { e with list := e.list.filter (· != id) }))
      | .poisonedSlot => (.error .destroyedError, s)
    | _ => (.error (.typeError "Invalid parameters type!"), s)

/-- Embedding of `Protocol.removeAllHooks(name)` (lines 490-496):
validates the name, returns whether the list was non-empty and clears
it. -/
def Protocol.removeAllHooks (s : ProtocolState) (name : String) :
    Except JsError Bool × ProtocolState :=
  if s.poisoned .mRemoveAllHooks then (.error .destroyedError, s)
  else if !hookNames.contains name then
    (.error (.typeError ("Hook list \"" ++ name ++ "\" is invalid!")), s)
  else
    match s.hooks name with
    | .entry e =>
      (.ok (decide (e.list.length > 0)), updateHooks s name (.entry { e with list := [] }))
    | .poisonedSlot => (.error .destroyedError, s)

/-- Embedding of `Protocol.getHooks(name)` (lines 506-510): validates
the name and returns the snapshot array `[...list]`. -/
def Protocol.getHooks (s : ProtocolState) (name : String) :
    Except JsError (List Nat) × ProtocolState :=
  if s.poisoned .mGetHooks then (.error .destroyedError, s)
  else if !hookNames.contains name then
    (.error (.typeError ("Hook list \"" ++ name ++ "\" is invalid!")), s)
  else
    match s.hooks name with
    | .entry e => (.ok e.list, s)
    | .poisonedSlot => (.error .destroyedError, s)

/-- Embedding of `Protocol.anyHooksActive(name)` (lines 520-526):
validates the name; returns `false` on an empty list, otherwise the
`active` flag. -/
def Protocol.anyHooksActive (s : ProtocolState) (name : String) :
    Except JsError Bool × ProtocolState :=
  if s.poisoned .mAnyHooksActive then (.error .destroyedError, s)
  else if !hookNames.contains name then
    (.error (.typeError ("Hook list \"" ++ name ++ "\" is invalid!")), s)
  else
    match s.hooks name with
    | .entry e => (.ok (if e.list.length == 0 then false else e.active), s)
    | .poisonedSlot => (.error .destroyedError, s)

/-- Embedding of `Protocol.toggleHooks(name, active = !this.#hooks[name].active)`
(lines 537-542).  When the `active` argument is absent the default
expression is evaluated first: reading `.active` off `this.#hooks[name]`
throws a `TypeError` when `name` is not a key (the read of a property of
`undefined`) and the destroyed error when the slot is the poisoned
stand-in.  The body then validates, assigns the flag and returns
`this.anyHooksActive(name)` on the updated state. -/
def Protocol.toggleHooks (s : ProtocolState) (name : String) (activeArg : Option JSValue) :
    Except JsError Bool × ProtocolState :=
  if s.poisoned .mToggleHooks then (.error .destroyedError, s)
  else
    match (match activeArg with
      | some v => Except.ok v
      | none =>
        match hookSlotOf s name with
        | some (.entry e) => Except.ok (JSValue.vBool (!e.active))
        | some .poisonedSlot => Except.error JsError.destroyedError
        | none =>
          Except.error (JsError.typeError
            "Cannot read properties of undefined")) with
    | .error err => (.error err, s)
    | .ok activeVal =>
      if !hookNames.contains name || typeofJS activeVal != "boolean" then
        (.error (.typeError "Invalid parameters type!"), s)
      else
        match s.hooks name, activeVal with
        | .entry e, .vBool b =>
          Protocol.anyHooksActive (updateHooks s name (.entry { e with active := b })) name
        | .poisonedSlot, _ => (.error .destroyedError, s)
        | _, _ => (.error (.typeError "Invalid parameters type!"), s)

/-- Embedding of `Protocol.log(...)` (lines 370-376): after dispatch,
printing has no modelled effect (and returns early when no console sink
is configured). -/
def Protocol.log (s : ProtocolState) : Except JsError Unit × ProtocolState :=
  if s.poisoned .mLog then (.error .destroyedError, s)
  else (.ok (), s)

/-- Embedding of `Protocol.isDestroyed()` (lines 394-396): returns the
`#destroyed` flag.  The dispatch guard is kept for uniformity; `destroy`
never replaces this method (its name is filtered out), which the
lifecycle theorem makes explicit. -/
def Protocol.isDestroyed (s : ProtocolState) : Except JsError Bool × ProtocolState :=
  if s.poisoned .mIsDestroyed then (.error .destroyedError, s)
  else (.ok s.destroyed, s)

/-- Embedding of `Protocol.destroy()` (lines 415-449): throws the
destroyed error when already destroyed; otherwise stops the server
(abstract, no modelled state), clears every hook list and replaces each
slot with the throwing `destroyHook` stand-in, replaces every
function-valued property of the prototype chain except `isDestroyed`
with `destroyFunc`, drops the console handle and sets `#destroyed`. -/
def Protocol.destroy (s : ProtocolState) : Except JsError Unit × ProtocolState :=
  if s.poisoned .mDestroy then (.error .destroyedError, s)
  else if s.destroyed then (.error .destroyedError, s)
  else
    (.ok (),
     { destroyed := true
     , poisoned := fun k => k != .mIsDestroyed
     , hooks := fun _ => .poisonedSlot })

/-- The 4-byte little-endian encoding of a 32-bit value, as produced by
the data prefix of `toMsg` (src/sources/transport/ipc.ts lines 42-61):
`[n, n >>> 8, n >>> 16, n >>> 24]` truncated to bytes. -/
def toLE4 (n : Nat) : List Nat :=
  [n % 256, n / 256 % 256, n / 65536 % 256, n / 16777216 % 256]

/-- One well-formed wire frame, as produced by `toMsg`
(src/sources/transport/ipc.ts lines 42-61): the 4-byte little-endian
`kind`, the 4-byte little-endian payload length, then the payload
bytes. -/
def encodeFrame (kind : Nat) (payload : List Nat) : List Nat :=
  toLE4 kind ++ toLE4 payload.length ++ payload

/-- Iterated `addHook` registration: performs `addHook(name, f)` for
each callback id of the list in order, threading the instance state. -/
def addHookSeq (s : ProtocolState) (name : String) : List Nat → ProtocolState
  | [] => s
  | f :: fs => addHookSeq (Protocol.addHook s name (.vFun f)).2 name fs

/-- A `DEEP_LINK`/`CHANNEL` payload whose `params` carry string-typed
`guildId`, `search` and `fingerprint`, with `channelId` absent when
`chan` is `none` and a string otherwise. -/
def deepLinkChannelPayload (chan : Option String) : JSValue :=
  .vObj true
    [("cmd", .vStr "DEEP_LINK"), ("nonce", .vStr "n"),
     ("args", .vObj true
       [("type", .vStr "CHANNEL"),
        ("params", .vObj true
          ([("guildId", .vStr "g"), ("search", .vStr "s"), ("fingerprint", .vStr "f")] ++
            (match chan with
             | some c => [("channelId", .vStr c)]
             | none => [])))])]

/-- A `DEEP_LINK`/`CHANNEL` payload whose `params` object lacks the
required string field `guildId`. -/
def deepLinkChannelMissingGuildId : JSValue :=
  .vObj true
    [("cmd", .vStr "DEEP_LINK"), ("nonce", .vStr "n"),
     ("args", .vObj true
       [("type", .vStr "CHANNEL"),
        ("params", .vObj true
          [("search", .vStr "s"), ("fingerprint", .vStr "f")])])]

/-- The rejection condition of the `"CHANNEL"` case of `isMessage` is a
tautology: `checkRecord` demands a string-typed `channelId` while the
second disjunct demands an `undefined` one, so one of the two disjuncts
always holds. -/
theorem channel_guard_true (p : JSValue) :
    checkRecord p ["guildId", "channelId", "search", "fingerprint"] "string" = false
  ∨ ((getField p "channelId") matches JSValue.vUndefined) = false := by
  cases h : getField p "channelId"
  case vUndefined => exact Or.inl (by simp [checkRecord, h, typeofJS])
  all_goals exact Or.inr (by simp [h])

/-- Whenever `args.params` is object-typed, `isMessage` with
`argsType = "CHANNEL"` rejects the payload: the success path would need
`params.channelId` to be a string and `undefined` at once. -/
theorem isMessage_channel_never_accepts (data : JSValue) (cmd : CmdArg)
    (h : typeofJS (getField (getField data "args") "params") = "object") :
    isMessage data cmd (some "CHANNEL") = false := by
  unfold isMessage
  split
  · rfl
  split
  · rfl
  split
  · rfl
  split
  · rfl
  rw [if_pos]
  simp [h]
  exact channel_guard_true _

/-- Claim C1: the claim states that `isMessage(payload, "DEEP_LINK",
"CHANNEL")` accepts every plain-object payload whose `params` carry
string `guildId`, `search` and `fingerprint` with `channelId` absent or
a string.  The code instead rejects such payloads: the `"CHANNEL"` case
condition `!checkRecord(params, ["guildId","channelId","search",
"fingerprint"], "string") || params.channelId !== undefined` cannot be
false, so the validator returns `false` both with `channelId` absent and
with `channelId` a string (and, as the claim also states, on a payload
missing `guildId`).  The same payload passes `isMessage` without the
`argsType` refinement, confirming the rejection comes only from the
`"CHANNEL"` branch. -/
theorem isMessage_channel_code_bug :
    isMessage (deepLinkChannelPayload none) (.one "DEEP_LINK") (some "CHANNEL") = false
  ∧ isMessage (deepLinkChannelPayload (some "c")) (.one "DEEP_LINK") (some "CHANNEL") = false
  ∧ isMessage deepLinkChannelMissingGuildId (.one "DEEP_LINK") (some "CHANNEL") = false
  ∧ isMessage (deepLinkChannelPayload none) (.one "DEEP_LINK") none = true :=
  ⟨rfl, rfl, rfl, rfl⟩

/-- With no `cmd`/`argsType` refinement, `isMessage` on a plain object
is exactly the check that `cmd` and `nonce` are string-typed and `args`
is object-typed. -/
theorem isMessage_noCmd_iff (fields : List (String × JSValue)) :
    isMessage (.vObj true fields) .noCmd none = true ↔
      (typeofJS (getField (.vObj true fields) "cmd") = "string"
     ∧ typeofJS (getField (.vObj true fields) "nonce") = "string"
     ∧ typeofJS (getField (.vObj true fields) "args") = "object") := by
  simp [isMessage, checkRecord, ctorIsObject]
  have h0 : typeofJS (JSValue.vObj true fields) = "object" := rfl
  rw [h0]
  tauto

/-- Claim C4: any value that fails the `constructor === Object` test
(arrays, class instances, null-prototype objects, null, primitives) is
rejected by `isMessage` regardless of its fields and of the `cmd` and
`argsType` arguments; and a plain object passes `isMessage` with no
`cmd` argument only if `cmd` and `nonce` are strings and `args` is
object-typed. -/
theorem isMessage_plain_gate :
    (∀ (data : JSValue) (cmd : CmdArg) (t : Option String),
       ctorIsObject data = false → isMessage data cmd t = false)
  ∧ (∀ (fields : List (String × JSValue)),
       isMessage (.vObj true fields) .noCmd none = true →
         typeofJS (getField (.vObj true fields) "cmd") = "string"
       ∧ typeofJS (getField (.vObj true fields) "nonce") = "string"
       ∧ typeofJS (getField (.vObj true fields) "args") = "object") := by
  constructor
  · intro data cmd t h
    unfold isMessage
    rw [if_pos]
    simp [h]
  · intro fields h
    exact (isMessage_noCmd_iff fields).mp h

/-- Witness for claim C4: an array payload is rejected however its
elements look, and a concrete well-formed plain object is accepted with
string-typed `cmd`. -/
theorem isMessage_plain_gate_witness :
    ctorIsObject (.vArr [.vStr "DEEP_LINK"]) = false
  ∧ isMessage (.vArr [.vStr "DEEP_LINK"]) .noCmd none = false
  ∧ isMessage (.vObj true [("cmd", .vStr "AUTHORIZE"), ("nonce", .vStr "n"),
      ("args", .vObj true [])]) .noCmd none = true
  ∧ typeofJS (getField (.vObj true [("cmd", .vStr "AUTHORIZE"), ("nonce", .vStr "n"),
      ("args", .vObj true [])]) "cmd") = "string" :=
  ⟨rfl, isMessage_plain_gate.1 (.vArr [.vStr "DEEP_LINK"]) .noCmd none rfl, rfl,
   (isMessage_plain_gate.2 [("cmd", .vStr "AUTHORIZE"), ("nonce", .vStr "n"),
      ("args", .vObj true [])] rfl).1⟩

/-- Claim C3: for a message whose `cmd` ends with `_BROWSER`,
`messageDefaultResponse` returns `cmd`, a `data` object echoing
`args.code` (or null) — with a nested `guildTemplate.code` duplicate
exactly when `cmd` is `GUILD_TEMPLATE_BROWSER` — and the original
`nonce`, with no `evt` field; for every other `cmd` it returns
`data: null`, `evt: null` and the `nonce`.  The third conjunct is the
end-to-end scenario of the claim. -/
theorem messageDefaultResponse_spec (m : UMessage) :
    (jsEndsWith m.cmd "_BROWSER" = true →
      messageDefaultResponse m = .vObj true
        [("cmd", .vStr m.cmd),
         ("data", .vObj true (("code", nullCoalesce (lookupArg m.args "code")) ::
            (if m.cmd == "GUILD_TEMPLATE_BROWSER" then
              [("guildTemplate", .vObj true [("code", nullCoalesce (lookupArg m.args "code"))])]
             else []))),
         ("nonce", jsNonce m.nonce)])
  ∧ (jsEndsWith m.cmd "_BROWSER" = false →
      messageDefaultResponse m = .vObj true
        [("cmd", .vStr m.cmd), ("data", .vNull), ("evt", .vNull), ("nonce", jsNonce m.nonce)])
  ∧ messageDefaultResponse
      { cmd := "GUILD_TEMPLATE_BROWSER", nonce := some "n2", args := [("code", .vStr "abc")] }
    = .vObj true
        [("cmd", .vStr "GUILD_TEMPLATE_BROWSER"),
         ("data", .vObj true [("code", .vStr "abc"),
            ("guildTemplate", .vObj true [("code", .vStr "abc")])]),
         ("nonce", .vStr "n2")] := by
  refine ⟨?_, ?_, rfl⟩
  · intro hb
    simp [messageDefaultResponse, hb]
  · intro hb
    simp [messageDefaultResponse, hb]

/-- Witness for claim C3: both branches evaluated on concrete messages,
an `INVITE_BROWSER` request (no `evt` field, echoed code) and an
`AUTHORIZE` request (`data` and `evt` null). -/
theorem messageDefaultResponse_spec_witness :
    jsEndsWith "INVITE_BROWSER" "_BROWSER" = true
  ∧ messageDefaultResponse (UMessage.mk "INVITE_BROWSER" (some "x") [("code", .vStr "inv")])
      = .vObj true
        [("cmd", .vStr "INVITE_BROWSER"),
         ("data", .vObj true [("code", .vStr "inv")]),
         ("nonce", .vStr "x")]
  ∧ jsEndsWith "AUTHORIZE" "_BROWSER" = false
  ∧ messageDefaultResponse (UMessage.mk "AUTHORIZE" (some "n1") []) = .vObj true
        [("cmd", .vStr "AUTHORIZE"), ("data", .vNull), ("evt", .vNull), ("nonce", .vStr "n1")] :=
  ⟨rfl, (messageDefaultResponse_spec _).1 rfl, rfl, ((messageDefaultResponse_spec _).2.1 rfl)⟩

/-- Claim C10: on the five catalog codes the consolidated
`messageDefaultResponse` and the legacy `Protocol.messageResponse`
coincide — there the `endsWith("_BROWSER")` test agrees with the
anchored regular expression over `INVITE_BROWSER` and
`GUILD_TEMPLATE_BROWSER`. -/
theorem messageResponse_refines (m : UMessage) (h : m.cmd ∈ knownCodes) :
    messageDefaultResponse m = messageResponse m := by
  obtain ⟨c, n, a⟩ := m
  simp only [knownCodes, List.mem_cons, List.not_mem_nil, or_false] at h
  rcases h with h | h | h | h | h <;> subst h <;> rfl

/-- Witness for claim C10: the two response builders agree on a concrete
`SET_ACTIVITY` message. -/
theorem messageResponse_refines_witness :
    "SET_ACTIVITY" ∈ knownCodes
  ∧ messageDefaultResponse { cmd := "SET_ACTIVITY", nonce := none, args := [] }
      = messageResponse { cmd := "SET_ACTIVITY", nonce := none, args := [] } :=
  ⟨by simp [knownCodes], messageResponse_refines _ (by simp [knownCodes])⟩

/-- Claim C2: once `destroy()` has returned on an instance, a second
`destroy()` throws the destroyed error, every other public method
(`addHook`, `removeHook`, `removeAllHooks`, `getHooks`,
`anyHooksActive`, `toggleHooks`, `log`) throws it unconditionally on any
arguments, and `isDestroyed()` remains callable and returns `true`. -/
theorem destroy_lifecycle (s s₂ : ProtocolState)
    (h : Protocol.destroy s = (.ok (), s₂)) :
    (Protocol.destroy s₂).1 = .error .destroyedError
  ∧ (∀ name v, (Protocol.addHook s₂ name v).1 = .error .destroyedError)
  ∧ (∀ name v, (Protocol.removeHook s₂ name v).1 = .error .destroyedError)
  ∧ (∀ name, (Protocol.removeAllHooks s₂ name).1 = .error .destroyedError)
  ∧ (∀ name, (Protocol.getHooks s₂ name).1 = .error .destroyedError)
  ∧ (∀ name, (Protocol.anyHooksActive s₂ name).1 = .error .destroyedError)
  ∧ (∀ name a, (Protocol.toggleHooks s₂ name a).1 = .error .destroyedError)
  ∧ (Protocol.log s₂).1 = .error .destroyedError
  ∧ (Protocol.isDestroyed s₂).1 = .ok true := by
  have h₂ : s₂ = { destroyed := true
                 , poisoned := fun k => k != .mIsDestroyed
                 , hooks := fun _ => .poisonedSlot } := by
    unfold Protocol.destroy at h
    split at h
    · exact absurd (congrArg Prod.fst h) (by simp)
    split at h
    · exact absurd (congrArg Prod.fst h) (by simp)
    · exact (Prod.mk.injEq _ _ _ _ ▸ h).2.symm ▸ rfl
  subst h₂
  refine ⟨rfl, fun name v => rfl, fun name v => rfl, fun name => rfl, fun name => rfl,
    fun name => rfl, fun name a => rfl, rfl, rfl⟩

/-- Witness for claim C2: destroying a fresh instance succeeds, after
which `addHook` fails with the destroyed error and `isDestroyed` reports
`true`. -/
theorem destroy_lifecycle_witness :
    Protocol.destroy ProtocolState.init = (.ok (), (Protocol.destroy ProtocolState.init).2)
  ∧ (Protocol.addHook (Protocol.destroy ProtocolState.init).2 "AUTHORIZE" (.vFun 0)).1
      = .error .destroyedError
  ∧ (Protocol.isDestroyed (Protocol.destroy ProtocolState.init).2).1 = .ok true :=
  ⟨rfl, (destroy_lifecycle ProtocolState.init (Protocol.destroy ProtocolState.init).2 rfl).2.1
      "AUTHORIZE" (.vFun 0),
   (destroy_lifecycle ProtocolState.init (Protocol.destroy ProtocolState.init).2
      rfl).2.2.2.2.2.2.2.2⟩

/-- Updating a slot of the hook map changes exactly that slot. -/
theorem updateHooks_hooks_self (s : ProtocolState) (name : String) (slot : HookSlot) :
    (updateHooks s name slot).hooks name = slot := by
  simp [updateHooks]

/-- Updating a slot of the hook map leaves the method table alone. -/
theorem updateHooks_poisoned (s : ProtocolState) (name : String) (slot : HookSlot) :
    (updateHooks s name slot).poisoned = s.poisoned := rfl

/-- One `addHook` call on a live entry: returns `false` (here `none`)
and keeps the list when the callback is present, otherwise appends it
and returns the new count. -/
theorem addHook_step (s : ProtocolState) (name : String) (e : HookEntry) (f : Nat)
    (hp : s.poisoned .mAddHook = false) (hname : name ∈ hookNames)
    (he : s.hooks name = .entry e) :
    Protocol.addHook s name (.vFun f) =
      (.ok (if f ∈ e.list then none else some (e.list.length + 1)),
       updateHooks s name
         (.entry ⟨if f ∈ e.list then e.list else e.list ++ [f], e.active⟩)) := by
  unfold Protocol.addHook
  simp [hp, hname, typeofJS, he]
  by_cases hc : f ∈ e.list <;> simp [hc]

/-- `getHooks` on a live entry returns its list and leaves the state. -/
theorem getHooks_entry (s : ProtocolState) (name : String) (e : HookEntry)
    (hp : s.poisoned .mGetHooks = false) (hname : name ∈ hookNames)
    (he : s.hooks name = .entry e) :
    Protocol.getHooks s name = (.ok e.list, s) := by
  simp [Protocol.getHooks, hp, hname, he]

/-- Registering a duplicate-free batch of fresh callbacks appends them
to the hook list in order and does not touch the method table. -/
theorem addHookSeq_invariant (name : String) (hname : name ∈ hookNames) :
    ∀ (fs : List Nat) (s : ProtocolState) (e : HookEntry),
      s.poisoned .mAddHook = false → s.hooks name = .entry e →
      fs.Nodup → (∀ f ∈ fs, f ∉ e.list) →
      (addHookSeq s name fs).hooks name = .entry ⟨e.list ++ fs, e.active⟩
    ∧ (addHookSeq s name fs).poisoned = s.poisoned := by
  intro fs
  induction fs with
  | nil =>
    intro s e hp he _ _
    exact ⟨by simpa [addHookSeq] using he, rfl⟩
  | cons f fs ih =>
    intro s e hp he hnd hni
    have hcf : f ∉ e.list := hni f (List.mem_cons_self f fs)
    have hstep := addHook_step s name e f hp hname he
    have h2 : (Protocol.addHook s name (.vFun f)).2 =
        updateHooks s name (.entry ⟨e.list ++ [f], e.active⟩) := by
      rw [hstep]; simp [hcf]
    have hrec := ih (updateHooks s name (.entry ⟨e.list ++ [f], e.active⟩))
      ⟨e.list ++ [f], e.active⟩ hp (updateHooks_hooks_self _ _ _) hnd.of_cons ?_
    · refine ⟨?_, ?_⟩
      · show (addHookSeq (Protocol.addHook s name (.vFun f)).2 name fs).hooks name = _
        rw [h2, hrec.1]
        simp
      · show (addHookSeq (Protocol.addHook s name (.vFun f)).2 name fs).poisoned = _
        rw [h2, hrec.2, updateHooks_poisoned]
    · intro g hg
      simp only [List.mem_append, List.mem_singleton]
      rintro (hgl | hgf)
      · exact hni g (List.mem_cons_of_mem _ hg) hgl
      · exact (List.nodup_cons.mp hnd).1 (hgf ▸ hg)

/-- Claim C6: `addHook(name, f)` with `f` already registered returns
`false` (modelled as `none`) and leaves `getHooks(name)` unchanged; with
`f` fresh it returns the new count and appends `f`; hence registering N
pairwise-distinct callbacks on an initially empty list makes
`getHooks(name)` return exactly that list of length N. -/
theorem addHook_idempotent_count :
    (∀ (s : ProtocolState) (name : String) (e : HookEntry) (f : Nat),
       s.poisoned .mAddHook = false → s.poisoned .mGetHooks = false →
       name ∈ hookNames → s.hooks name = .entry e →
       (f ∈ e.list →
          (Protocol.addHook s name (.vFun f)).1 = .ok none
        ∧ (Protocol.getHooks (Protocol.addHook s name (.vFun f)).2 name).1 = .ok e.list)
     ∧ (f ∉ e.list →
          (Protocol.addHook s name (.vFun f)).1 = .ok (some (e.list.length + 1))
        ∧ (Protocol.getHooks (Protocol.addHook s name (.vFun f)).2 name).1
            = .ok (e.list ++ [f])))
  ∧ (∀ (s : ProtocolState) (name : String) (a : Bool) (fs : List Nat),
       s.poisoned .mAddHook = false → s.poisoned .mGetHooks = false →
       name ∈ hookNames → s.hooks name = .entry ⟨[], a⟩ → fs.Nodup →
       (Protocol.getHooks (addHookSeq s name fs) name).1 = .ok fs
     ∧ (Protocol.getHooks (addHookSeq s name fs) name).1.map List.length
         = .ok fs.length) := by
  constructor
  · intro s name e f hpa hpg hname he
    have hstep := addHook_step s name e f hpa hname he
    constructor
    · intro hf
      have h2 : (Protocol.addHook s name (.vFun f)).2 =
          updateHooks s name (.entry ⟨e.list, e.active⟩) := by rw [hstep]; simp [hf]
      constructor
      · rw [hstep]; simp [hf]
      · rw [h2, getHooks_entry (updateHooks s name (.entry ⟨e.list, e.active⟩)) name
          ⟨e.list, e.active⟩ (by rw [updateHooks_poisoned]; exact hpg) hname
          (updateHooks_hooks_self _ _ _)]
    · intro hf
      have h2 : (Protocol.addHook s name (.vFun f)).2 =
          updateHooks s name (.entry ⟨e.list ++ [f], e.active⟩) := by rw [hstep]; simp [hf]
      constructor
      · rw [hstep]; simp [hf]
      · rw [h2, getHooks_entry (updateHooks s name (.entry ⟨e.list ++ [f], e.active⟩)) name
          ⟨e.list ++ [f], e.active⟩ (by rw [updateHooks_poisoned]; exact hpg) hname
          (updateHooks_hooks_self _ _ _)]
  · intro s name a fs hpa hpg hname he hnd
    have hinv := addHookSeq_invariant name hname fs s ⟨[], a⟩ hpa he hnd
      (by intro f _ hf; simp at hf)
    have hgp : (addHookSeq s name fs).poisoned .mGetHooks = false := by rw [hinv.2]; exact hpg
    have := getHooks_entry (addHookSeq s name fs) name ⟨[] ++ fs, a⟩ hgp hname hinv.1
    rw [this]
    exact ⟨rfl, rfl⟩

/-- Witness for claim C6: on a fresh instance the first registration
under `AUTHORIZE` counts 1, and registering the three distinct callbacks
1, 2, 3 makes `getHooks` return exactly that list. -/
theorem addHook_idempotent_count_witness :
    (5 : Nat) ∉ (HookEntry.mk [] true).list
  ∧ (Protocol.addHook ProtocolState.init "AUTHORIZE" (.vFun 5)).1 = .ok (some 1)
  ∧ ([1, 2, 3] : List Nat).Nodup
  ∧ (Protocol.getHooks (addHookSeq ProtocolState.init "AUTHORIZE" [1, 2, 3]) "AUTHORIZE").1
      = .ok [1, 2, 3] := by
  refine ⟨by simp, ?_, by decide, ?_⟩
  · exact ((addHook_idempotent_count.1 ProtocolState.init "AUTHORIZE" ⟨[], true⟩ 5
      rfl rfl (by simp [hookNames, knownCodes, knownTypes]) rfl).2 (by simp)).1
  · exact (addHook_idempotent_count.2 ProtocolState.init "AUTHORIZE" true [1, 2, 3]
      rfl rfl (by simp [hookNames, knownCodes, knownTypes]) rfl (by decide)).1

/-- Claim C7: on a live instance and recognized hook name,
`anyHooksActive` returns `false` whenever the hook list is empty — also
right after `toggleHooks` set the active flag to any value — and equals
the active flag whenever the list is non-empty. -/
theorem anyHooksActive_empty_false (s : ProtocolState) (name : String) (e : HookEntry)
    (hp : s.poisoned .mAnyHooksActive = false)
    (ht : s.poisoned .mToggleHooks = false)
    (hname : name ∈ hookNames)
    (he : s.hooks name = .entry e) :
    (e.list = [] → (Protocol.anyHooksActive s name).1 = .ok false)
  ∧ (e.list ≠ [] → (Protocol.anyHooksActive s name).1 = .ok e.active)
  ∧ (∀ b : Bool, e.list = [] →
      (Protocol.anyHooksActive
        (Protocol.toggleHooks s name (some (.vBool b))).2 name).1 = .ok false) := by
  refine ⟨?_, ?_, ?_⟩
  · intro hl
    simp [Protocol.anyHooksActive, hp, hname, he, hl]
  · intro hl
    simp [Protocol.anyHooksActive, hp, hname, he, hl]
  · intro b hl
    have htog : (Protocol.toggleHooks s name (some (.vBool b))).2 =
        updateHooks s name (.entry ⟨e.list, b⟩) := by
      simp [Protocol.toggleHooks, ht, hname, typeofJS, he, Protocol.anyHooksActive,
        updateHooks_hooks_self, hp, updateHooks_poisoned]
    rw [htog, hl]
    have hp2 : (updateHooks s name (.entry ⟨[], b⟩)).poisoned .mAnyHooksActive = false := by
      rw [updateHooks_poisoned]; exact hp
    simp [Protocol.anyHooksActive, hp2, hname, updateHooks_hooks_self]

/-- Witness for claim C7: a fresh instance has an empty `SET_ACTIVITY`
hook list, so `anyHooksActive` is `false` both initially (flag `true`)
and after `toggleHooks(name, true)`. -/
theorem anyHooksActive_empty_false_witness :
    ProtocolState.init.poisoned .mAnyHooksActive = false
  ∧ "SET_ACTIVITY" ∈ hookNames
  ∧ ProtocolState.init.hooks "SET_ACTIVITY" = .entry ⟨[], true⟩
  ∧ (Protocol.anyHooksActive ProtocolState.init "SET_ACTIVITY").1 = .ok false
  ∧ (Protocol.anyHooksActive
      (Protocol.toggleHooks ProtocolState.init "SET_ACTIVITY" (some (.vBool true))).2
      "SET_ACTIVITY").1 = .ok false := by
  refine ⟨rfl, by simp [hookNames, knownCodes, knownTypes], rfl, ?_, ?_⟩
  · exact (anyHooksActive_empty_false ProtocolState.init "SET_ACTIVITY" ⟨[], true⟩
      rfl rfl (by simp [hookNames, knownCodes, knownTypes]) rfl).1 rfl
  · exact (anyHooksActive_empty_false ProtocolState.init "SET_ACTIVITY" ⟨[], true⟩
      rfl rfl (by simp [hookNames, knownCodes, knownTypes]) rfl).2.2 true rfl

/-- Claim C8: every registry operation called with an unrecognized hook
name fails synchronously with a `TypeError`; `addHook`/`removeHook` fail
on a non-callable argument and `toggleHooks` on a non-boolean `active`
(when the `active` argument is absent and the name unrecognized, the
default-parameter read of `.active` off `undefined` is itself the
`TypeError`).  Each equation returns the unchanged state, so no failing
call mutates any hook list or active flag. -/
theorem registry_invalid_input_errors :
    (∀ (s : ProtocolState) (name : String) (v : JSValue),
       s.poisoned .mAddHook = false → name ∉ hookNames →
       Protocol.addHook s name v = (.error (.typeError "Invalid parameters type!"), s))
  ∧ (∀ (s : ProtocolState) (name : String) (v : JSValue),
       s.poisoned .mAddHook = false → typeofJS v ≠ "function" →
       Protocol.addHook s name v = (.error (.typeError "Invalid parameters type!"), s))
  ∧ (∀ (s : ProtocolState) (name : String) (v : JSValue),
       s.poisoned .mRemoveHook = false → name ∉ hookNames →
       Protocol.removeHook s name v = (.error (.typeError "Invalid parameters type!"), s))
  ∧ (∀ (s : ProtocolState) (name : String) (v : JSValue),
       s.poisoned .mRemoveHook = false → typeofJS v ≠ "function" →
       Protocol.removeHook s name v = (.error (.typeError "Invalid parameters type!"), s))
  ∧ (∀ (s : ProtocolState) (name : String),
       s.poisoned .mRemoveAllHooks = false → name ∉ hookNames →
       Protocol.removeAllHooks s name =
         (.error (.typeError ("Hook list \"" ++ name ++ "\" is invalid!")), s))
  ∧ (∀ (s : ProtocolState) (name : String),
       s.poisoned .mGetHooks = false → name ∉ hookNames →
       Protocol.getHooks s name =
         (.error (.typeError ("Hook list \"" ++ name ++ "\" is invalid!")), s))
  ∧ (∀ (s : ProtocolState) (name : String),
       s.poisoned .mAnyHooksActive = false → name ∉ hookNames →
       Protocol.anyHooksActive s name =
         (.error (.typeError ("Hook list \"" ++ name ++ "\" is invalid!")), s))
  ∧ (∀ (s : ProtocolState) (name : String) (v : JSValue),
       s.poisoned .mToggleHooks = false → name ∉ hookNames →
       Protocol.toggleHooks s name (some v) =
         (.error (.typeError "Invalid parameters type!"), s))
  ∧ (∀ (s : ProtocolState) (name : String),
       s.poisoned .mToggleHooks = false → name ∉ hookNames →
       Protocol.toggleHooks s name none =
         (.error (.typeError "Cannot read properties of undefined"), s))
  ∧ (∀ (s : ProtocolState) (name : String) (e : HookEntry) (v : JSValue),
       s.poisoned .mToggleHooks = false → name ∈ hookNames →
       s.hooks name = .entry e → typeofJS v ≠ "boolean" →
       Protocol.toggleHooks s name (some v) =
         (.error (.typeError "Invalid parameters type!"), s)) := by
  refine ⟨?_, ?_, ?_, ?_, ?_, ?_, ?_, ?_, ?_, ?_⟩
  · intro s name v hp hn
    simp [Protocol.addHook, hp, hn]
  · intro s name v hp hv
    simp [Protocol.addHook, hp, hv]
  · intro s name v hp hn
    simp [Protocol.removeHook, hp, hn]
  · intro s name v hp hv
    simp [Protocol.removeHook, hp, hv]
  · intro s name hp hn
    simp [Protocol.removeAllHooks, hp, hn]
  · intro s name hp hn
    simp [Protocol.getHooks, hp, hn]
  · intro s name hp hn
    simp [Protocol.anyHooksActive, hp, hn]
  · intro s name v hp hn
    simp [Protocol.toggleHooks, hp, hn]
  · intro s name hp hn
    simp [Protocol.toggleHooks, hp, hookSlotOf, hn]
  · intro s name e v hp hn he hv
    simp [Protocol.toggleHooks, hp, hn, he, hv]

/-- Witness for claim C8: concrete failing calls on a fresh instance —
an unrecognized name `FOO` for `addHook`, `getHooks` and both
`toggleHooks` shapes, a string callback, and a numeric `active` flag —
each returning the untouched initial state. -/
theorem registry_invalid_input_errors_witness :
    "FOO" ∉ hookNames
  ∧ Protocol.addHook ProtocolState.init "FOO" (.vFun 1)
      = (.error (.typeError "Invalid parameters type!"), ProtocolState.init)
  ∧ typeofJS (JSValue.vStr "x") ≠ "function"
  ∧ Protocol.addHook ProtocolState.init "AUTHORIZE" (.vStr "x")
      = (.error (.typeError "Invalid parameters type!"), ProtocolState.init)
  ∧ Protocol.getHooks ProtocolState.init "FOO"
      = (.error (.typeError "Hook list \"FOO\" is invalid!"), ProtocolState.init)
  ∧ typeofJS (JSValue.vNum 1) ≠ "boolean"
  ∧ Protocol.toggleHooks ProtocolState.init "AUTHORIZE" (some (.vNum 1))
      = (.error (.typeError "Invalid parameters type!"), ProtocolState.init)
  ∧ Protocol.toggleHooks ProtocolState.init "FOO" none
      = (.error (.typeError "Cannot read properties of undefined"),
         ProtocolState.init) := by
  have hfoo : "FOO" ∉ hookNames := by simp [hookNames, knownCodes, knownTypes]
  have hauth : "AUTHORIZE" ∈ hookNames := by simp [hookNames, knownCodes, knownTypes]
  refine ⟨hfoo, ?_, by simp [typeofJS], ?_, ?_, by simp [typeofJS], ?_, ?_⟩
  · exact registry_invalid_input_errors.1 ProtocolState.init "FOO" (.vFun 1) rfl hfoo
  · exact registry_invalid_input_errors.2.1 ProtocolState.init "AUTHORIZE" (.vStr "x") rfl
      (by simp [typeofJS])
  · exact registry_invalid_input_errors.2.2.2.2.2.1 ProtocolState.init "FOO" rfl hfoo
  · exact registry_invalid_input_errors.2.2.2.2.2.2.2.2.2 ProtocolState.init "AUTHORIZE"
      ⟨[], true⟩ (.vNum 1) rfl hauth rfl (by simp [typeofJS])
  · exact registry_invalid_input_errors.2.2.2.2.2.2.2.2.1 ProtocolState.init "FOO" rfl hfoo

/-- A 4-byte little-endian prefix decodes back to its 32-bit value. -/
theorem readUInt32LE_toLE4 (n : Nat) (hn : n < 4294967296) (rest : List Nat) :
    readUInt32LE (toLE4 n ++ rest) 0 = some n := by
  simp [readUInt32LE, toLE4]
  omega

/-- Reading at offset 4 skips one 4-byte little-endian prefix. -/
theorem readUInt32LE_shift4 (n : Nat) (rest : List Nat) :
    readUInt32LE (toLE4 n ++ rest) 4 = readUInt32LE rest 0 := rfl

/-- A frame followed by further bytes, reassociated byte by byte. -/
theorem encodeFrame_append (k : Nat) (d R : List Nat) :
    encodeFrame k d ++ R = toLE4 k ++ (toLE4 d.length ++ (d ++ R)) := by
  simp [encodeFrame]

/-- `parsePacket` consumes exactly one leading well-formed frame —
`8 + length` bytes — and recurses on the remainder of the stream. -/
theorem parsePacket_cons (k : Nat) (hk : k < 4294967296) (d : List Nat)
    (hd : d.length < 4294967296) (R : List Nat) :
    parsePacket (encodeFrame k d ++ R) =
      match parsePacket R with
      | some rest => some ({ kind := k, size := d.length, data := d } :: rest)
      | none => none := by
  rw [encodeFrame_append]
  have hdrop : (toLE4 k ++ (toLE4 d.length ++ (d ++ R))).drop (8 + d.length) = R := by
    have h1 : (toLE4 k ++ (toLE4 d.length ++ (d ++ R))).drop 8 = d ++ R := rfl
    have h2 : (toLE4 k ++ (toLE4 d.length ++ (d ++ R))).drop (8 + d.length) =
        ((toLE4 k ++ (toLE4 d.length ++ (d ++ R))).drop 8).drop d.length := by
      rw [List.drop_drop]
    rw [h2, h1, List.drop_left]
  have htake : ((toLE4 k ++ (toLE4 d.length ++ (d ++ R))).drop 8).take d.length = d := by
    have h1 : (toLE4 k ++ (toLE4 d.length ++ (d ++ R))).drop 8 = d ++ R := rfl
    rw [h1, List.take_left]
  conv_lhs => rw [parsePacket.eq_def]
  rw [if_neg (by simp [toLE4])]
  rw [readUInt32LE_toLE4 k hk, readUInt32LE_shift4, readUInt32LE_toLE4 d.length hd]
  show (match parsePacket ((toLE4 k ++ (toLE4 d.length ++ (d ++ R))).drop (8 + d.length)) with
    | some rest =>
      some (RawMessage.mk k d.length
        (((toLE4 k ++ (toLE4 d.length ++ (d ++ R))).drop 8).take d.length) :: rest)
    | none => none) = _
  rw [hdrop, htake]

/-- Claim C9: a buffer that concatenates n well-formed frames — 4-byte
little-endian kind, 4-byte little-endian payload length, then exactly
that many payload bytes — parses to exactly n records in stream order
whose `kind`, `size` and `data` fields are those of the corresponding
frames, consuming `8 + length` bytes per frame until exhaustion. -/
theorem parsePacket_frames (frames : List (Nat × List Nat))
    (h : ∀ f ∈ frames, f.1 < 4294967296 ∧ f.2.length < 4294967296) :
    parsePacket ((frames.map fun f => encodeFrame f.1 f.2).flatten) =
      some (frames.map fun f => { kind := f.1, size := f.2.length, data := f.2 }) := by
  induction frames with
  | nil => simp [parsePacket]
  | cons f fs ih =>
    obtain ⟨k, d⟩ := f
    have hk := (h ⟨k, d⟩ (List.mem_cons_self _ _)).1
    have hd := (h ⟨k, d⟩ (List.mem_cons_self _ _)).2
    have ih2 := ih fun g hg => h g (List.mem_cons_of_mem _ hg)
    rw [List.map_cons, List.flatten_cons, parsePacket_cons k hk d hd, ih2, List.map_cons]

/-- Witness for claim C9: a two-frame stream — kind 1 with payload
`[104, 105]` and kind `0x12345678` with an empty payload — parses to
the two matching records. -/
theorem parsePacket_frames_witness :
    (∀ f ∈ ([(1, [104, 105]), (305419896, [])] : List (Nat × List Nat)),
        f.1 < 4294967296 ∧ f.2.length < 4294967296)
  ∧ parsePacket ((([(1, [104, 105]), (305419896, [])] : List (Nat × List Nat)).map
        fun f => encodeFrame f.1 f.2).flatten) =
      some [{ kind := 1, size := 2, data := [104, 105] },
            { kind := 305419896, size := 0, data := [] }] :=
  ⟨by decide, parsePacket_frames [(1, [104, 105]), (305419896, [])] (by decide)⟩

/-- Ascending negotiation: starting at or below the target, every
earlier candidate busy and the target free, `tryServer` resolves with
the target. -/
theorem tryServer_asc_ok (e : Int) (busy : Int → Bool) (start : Int) (hse : start ≤ e) :
    ∀ (n : Nat) (port p : Int), (p - port).toNat = n → port ≤ p → p ≤ e → busy p = false →
    (∀ q, port ≤ q → q < p → busy q = true) →
    tryServer start e busy port = .ok p := by
  have hgt : ¬ start > e := not_lt.mpr hse
  intro n
  induction n with
  | zero =>
    intro port p hn hpp hpe hfree _
    have hpp2 : port = p := by omega
    subst hpp2
    unfold tryServer
    simp [hgt, not_lt.mpr hpe, hfree]
  | succ n ih =>
    intro port p hn hpp hpe hfree hbusy
    have hlt : port < p := by omega
    unfold tryServer
    simp only [hgt, if_false]
    rw [if_neg (by omega : ¬ port > e)]
    rw [hbusy port le_rfl hlt]
    simp only [if_true]
    exact ih (port + 1) p (by omega) (by omega) hpe hfree
      (fun q h1 h2 => hbusy q (by omega) h2)

/-- Ascending negotiation: with every candidate of the range busy,
`tryServer` walks past the end and fails with the exhaustion error. -/
theorem tryServer_asc_exhaust (e : Int) (busy : Int → Bool) (start : Int) (hse : start ≤ e) :
    ∀ (n : Nat) (port : Int), (e + 1 - port).toNat = n → port ≤ e + 1 →
    (∀ q, port ≤ q → q ≤ e → busy q = true) →
    tryServer start e busy port = .error "All ports from given range are busy!" := by
  have hgt : ¬ start > e := not_lt.mpr hse
  intro n
  induction n with
  | zero =>
    intro port hn hpe _
    unfold tryServer
    simp only [hgt, if_false]
    rw [if_pos (by omega : port > e)]
  | succ n ih =>
    intro port hn hpe hbusy
    have hple : port ≤ e := by omega
    unfold tryServer
    simp only [hgt, if_false]
    rw [if_neg (by omega : ¬ port > e)]
    rw [hbusy port le_rfl hple]
    simp only [if_true]
    exact ih (port + 1) (by omega) (by omega) (fun q h1 h2 => hbusy q (by omega) h2)

/-- Descending negotiation: starting at or above the target, every later
candidate busy and the target free, `tryServer` resolves with the
target. -/
theorem tryServer_desc_ok (e : Int) (busy : Int → Bool) (start : Int) (hse : e < start) :
    ∀ (n : Nat) (port p : Int), (port - p).toNat = n → p ≤ port → e ≤ p → busy p = false →
    (∀ q, q ≤ port → p < q → busy q = true) →
    tryServer start e busy port = .ok p := by
  have hgt : start > e := hse
  intro n
  induction n with
  | zero =>
    intro port p hn hpp hpe hfree _
    have hpp2 : port = p := by omega
    subst hpp2
    unfold tryServer
    simp [hgt, not_lt.mpr hpe, hfree]
  | succ n ih =>
    intro port p hn hpp hpe hfree hbusy
    have hlt : p < port := by omega
    unfold tryServer
    simp only [hgt, if_true]
    rw [if_neg (by omega : ¬ port < e)]
    rw [hbusy port le_rfl hlt]
    simp only [if_true]
    exact ih (port - 1) p (by omega) (by omega) hpe hfree
      (fun q h1 h2 => hbusy q (by omega) h2)

/-- Descending negotiation: with every candidate of the range busy,
`tryServer` walks below the end and fails with the exhaustion error. -/
theorem tryServer_desc_exhaust (e : Int) (busy : Int → Bool) (start : Int) (hse : e < start) :
    ∀ (n : Nat) (port : Int), (port - (e - 1)).toNat = n → e - 1 ≤ port →
    (∀ q, e ≤ q → q ≤ port → busy q = true) →
    tryServer start e busy port = .error "All ports from given range are busy!" := by
  have hgt : start > e := hse
  intro n
  induction n with
  | zero =>
    intro port hn hpe _
    unfold tryServer
    simp only [hgt, if_true]
    rw [if_pos (by omega : port < e)]
  | succ n ih =>
    intro port hn hpe hbusy
    have hple : e ≤ port := by omega
    unfold tryServer
    simp only [hgt, if_true]
    rw [if_neg (by omega : ¬ port < e)]
    rw [hbusy port hple le_rfl]
    simp only [if_true]
    exact ih (port - 1) (by omega) (by omega) (fun q h1 h2 => hbusy q h1 (by omega))

/-- Claim C5: `getServer` probes candidates in ascending order from
`start` when `start ≤ end`, resolving with the first port that binds,
and in descending order when `start > end`; when every candidate in the
range fails to bind it rejects with the resource-exhaustion error.  The
final conjunct is the end-to-end scenario of the claim: range
`[6463, 6472]` with 6463 through 6465 busy resolves at 6466. -/
theorem getServer_spec :
    (∀ (start e p : Int) (busy : Int → Bool),
       start ≤ e → start ≤ p → p ≤ e → busy p = false →
       (∀ q, start ≤ q → q < p → busy q = true) →
       getServer start e busy = .ok p)
  ∧ (∀ (start e : Int) (busy : Int → Bool),
       start ≤ e → (∀ q, start ≤ q → q ≤ e → busy q = true) →
       getServer start e busy = .error "All ports from given range are busy!")
  ∧ (∀ (start e p : Int) (busy : Int → Bool),
       e < start → p ≤ start → e ≤ p → busy p = false →
       (∀ q, q ≤ start → p < q → busy q = true) →
       getServer start e busy = .ok p)
  ∧ (∀ (start e : Int) (busy : Int → Bool),
       e < start → (∀ q, e ≤ q → q ≤ start → busy q = true) →
       getServer start e busy = .error "All ports from given range are busy!")
  ∧ getServer 6463 6472 (fun p => decide (6463 ≤ p ∧ p ≤ 6465)) = .ok 6466 := by
  refine ⟨?_, ?_, ?_, ?_, ?_⟩
  · intro start e p busy h1 h2 h3 h4 h5
    exact tryServer_asc_ok e busy start h1 (p - start).toNat start p rfl h2 h3 h4 h5
  · intro start e busy h1 h2
    exact tryServer_asc_exhaust e busy start h1 (e + 1 - start).toNat start rfl
      (by omega) h2
  · intro start e p busy h1 h2 h3 h4 h5
    exact tryServer_desc_ok e busy start h1 (start - p).toNat start p rfl h2 h3 h4 h5
  · intro start e busy h1 h2
    exact tryServer_desc_exhaust e busy start h1 (start - (e - 1)).toNat start rfl
      (by omega) h2
  · exact tryServer_asc_ok 6472 _ 6463 (by omega) ((6466 : Int) - 6463).toNat 6463 6466 rfl
      (by omega) (by omega) (by simp)
      (fun q h1 h2 => by simp; omega)

/-- Witness for claim C5: the end-to-end scenario evaluated through the
theorem — ports 6463 through 6465 busy, resolution at 6466 — and an
exhausted descending range. -/
theorem getServer_spec_witness :
    ((6463 : Int) ≤ 6472 ∧ (6463 : Int) ≤ 6466 ∧ (6466 : Int) ≤ 6472
      ∧ (fun p : Int => decide (6463 ≤ p ∧ p ≤ 6465)) 6466 = false)
  ∧ getServer 6463 6472 (fun p : Int => decide (6463 ≤ p ∧ p ≤ 6465)) = .ok 6466
  ∧ getServer 3 1 (fun _ : Int => true) = .error "All ports from given range are busy!" := by
  refine ⟨⟨by omega, by omega, by omega, by simp⟩, ?_, ?_⟩
  · exact getServer_spec.1 6463 6472 6466 _ (by omega) (by omega) (by omega) (by simp)
      (fun q h1 h2 => by simp; omega)
  · exact getServer_spec.2.2.2.1 3 1 _ (by omega) (fun q _ _ => rfl)

end DisConnection
